import Mathlib

/-!
Verification of the siglum CTAN package proxy worker (src/index.ts of the
worker service).  The worker's handlers are shallowly embedded as pure
functions over a `World` of upstream oracles (registry JSON lookups,
mirror archive downloads, and the R2 object store); every handler returns
the HTTP response it would produce together with the ordered list of
side effects (fetches, store reads, store writes) it performed.

External platform pieces are modelled at their interface: ZIP archives are
represented by the entry list `unzipSync` would return, `TextDecoder` by a
UTF-8 decoder with replacement characters, and `btoa` over the binary
string built by `arrayBufferToBase64` by a base64 encoder over the byte
list.  JavaScript string searches (`includes`, `indexOf`, `lastIndexOf`,
`substring`) and the three regular expressions of the worker are given
direct executable models.
-/

namespace Siglum

/-! ## JavaScript string primitives -/

/-- Index of the first occurrence of `sub` in the remainder of a scan,
counting from `i`; models the search underlying `String.prototype.indexOf`. -/
def firstIdxFrom (sub : List Char) : List Char → Nat → Option Nat
  | [], i => if sub.isEmpty then some i else none
  | c :: t, i => if sub.isPrefixOf (c :: t) then some i else firstIdxFrom sub t (i + 1)

/-- Models `s.indexOf(sub)` returning `none` for `-1`. -/
def jsIndexOf (s sub : String) : Option Nat := firstIdxFrom sub.data s.data 0

/-- Models `s.includes(sub)`. -/
def jsIncludes (s sub : String) : Bool := (jsIndexOf s sub).isSome

/-- Accumulator scan for the position of the last occurrence of a character. -/
def lastIdxAux (c : Char) : List Char → Nat → Option Nat → Option Nat
  | [], _, acc => acc
  | x :: t, i, acc => lastIdxAux c t (i + 1) (if x = c then some i else acc)

/-- Models `s.lastIndexOf(c)` for a single character, `none` for `-1`. -/
def lastIdxOfChar (s : String) (c : Char) : Option Nat := lastIdxAux c s.data 0 none

/-- Models `s.substring(a, b)` for the in-range arguments the worker uses
(JavaScript clamps to the string length and swaps reversed bounds). -/
def jsSubstring (s : String) (a b : Nat) : String :=
  ⟨(s.data.take (max a b)).drop (min a b)⟩

/-- Models `s.toLowerCase()`; the worker only lowercases ASCII extensions. -/
def toLowerStr (s : String) : String := ⟨s.data.map Char.toLower⟩

/-- Models `s.startsWith(pre)`. -/
def strStartsWith (s pre : String) : Bool := pre.data.isPrefixOf s.data

/-- Splitting on a single-character separator, as `s.split(sep)` does. -/
def splitOnCharAux (sep : Char) : List Char → List Char → List (List Char)
  | [], cur => [cur.reverse]
  | c :: t, cur =>
    if c = sep then cur.reverse :: splitOnCharAux sep t []
    else splitOnCharAux sep t (c :: cur)

/-- Models `s.split(sep)` for a one-character separator. -/
def splitOnChar (s : String) (sep : Char) : List String :=
  (splitOnCharAux sep s.data []).map (fun l => ⟨l⟩)

/-- Whitespace recognised by `String.prototype.trim`. -/
def jsIsSpace (c : Char) : Bool :=
  c = ' ' || c = '\t' || c = '\n' || c = '\r' ||
  c = '\x0b' || c = '\x0c' || c = ' ' || c = '﻿'

/-- Models `s.trim()`. -/
def jsTrim (s : String) : String :=
  ⟨((s.data.dropWhile jsIsSpace).reverse.dropWhile jsIsSpace).reverse⟩

/-! ## TextDecoder (UTF-8, replacement character on errors) -/

/-- The Unicode replacement character emitted for malformed input. -/
def replChar : Char := Char.ofNat 0xFFFD

/-- Continuation byte test. -/
def isCont (b : Nat) : Bool := 0x80 ≤ b && b ≤ 0xBF

/-- Second-byte range check of a three-byte sequence led by `b`
(excludes overlong forms and surrogates). -/
def cont3Ok (b b2 : Nat) : Bool :=
  if b = 0xE0 then 0xA0 ≤ b2 && b2 ≤ 0xBF
  else if b = 0xED then 0x80 ≤ b2 && b2 ≤ 0x9F
  else isCont b2

/-- Second-byte range check of a four-byte sequence led by `b`. -/
def cont4Ok (b b2 : Nat) : Bool :=
  if b = 0xF0 then 0x90 ≤ b2 && b2 ≤ 0xBF
  else if b = 0xF4 then 0x80 ≤ b2 && b2 ≤ 0x8F
  else isCont b2

/-- UTF-8 decoding of a byte list, one replacement character per
malformed prefix; models `new TextDecoder().decode(bytes)`. -/
def utf8DecodeAux : List Nat → List Char
  | [] => []
  | b :: rest =>
    if b < 0x80 then Char.ofNat b :: utf8DecodeAux rest
    else if 0xC2 ≤ b && b ≤ 0xDF then
      match rest with
      | [] => [replChar]
      | b2 :: rest2 =>
        if isCont b2 then
          Char.ofNat ((b - 0xC0) * 64 + (b2 - 0x80)) :: utf8DecodeAux rest2
        else replChar :: utf8DecodeAux (b2 :: rest2)
    else if 0xE0 ≤ b && b ≤ 0xEF then
      match rest with
      | [] => [replChar]
      | b2 :: rest2 =>
        if cont3Ok b b2 then
          match rest2 with
          | [] => [replChar]
          | b3 :: rest3 =>
            if isCont b3 then
              Char.ofNat ((b - 0xE0) * 4096 + (b2 - 0x80) * 64 + (b3 - 0x80)) ::
                utf8DecodeAux rest3
            else replChar :: utf8DecodeAux (b3 :: rest3)
        else replChar :: utf8DecodeAux (b2 :: rest2)
    else if 0xF0 ≤ b && b ≤ 0xF4 then
      match rest with
      | [] => [replChar]
      | b2 :: rest2 =>
        if cont4Ok b b2 then
          match rest2 with
          | [] => [replChar]
          | b3 :: rest3 =>
            if isCont b3 then
              match rest3 with
              | [] => [replChar]
              | b4 :: rest4 =>
                if isCont b4 then
                  Char.ofNat ((b - 0xF0) * 262144 + (b2 - 0x80) * 4096 +
                      (b3 - 0x80) * 64 + (b4 - 0x80)) :: utf8DecodeAux rest4
                else replChar :: utf8DecodeAux (b4 :: rest4)
            else replChar :: utf8DecodeAux (b3 :: rest3)
        else replChar :: utf8DecodeAux (b2 :: rest2)
    else replChar :: utf8DecodeAux rest

/-- String form of the UTF-8 decoder. -/
def textDecode (bs : List Nat) : String := ⟨utf8DecodeAux bs⟩

/-- UTF-8 encoding of one scalar value. -/
def utf8EncodeChar (c : Char) : List Nat :=
  let n := c.toNat
  if n < 0x80 then [n]
  else if n < 0x800 then [0xC0 + n / 64, 0x80 + n % 64]
  else if n < 0x10000 then [0xE0 + n / 4096, 0x80 + n / 64 % 64, 0x80 + n % 64]
  else [0xF0 + n / 262144, 0x80 + n / 4096 % 64, 0x80 + n / 64 % 64, 0x80 + n % 64]

/-- UTF-8 encoding of a string (byte view of stored text payloads). -/
def utf8Encode (s : String) : List Nat := (s.data.map utf8EncodeChar).flatten

/-! ## Base64 (`arrayBufferToBase64`: binary string plus `btoa`) -/

/-- The base64 alphabet. -/
def b64Alphabet : List Char :=
  "ABCDEFGHIJKLMNOPQRSTUVWXYZabcdefghijklmnopqrstuvwxyz0123456789+/".data

/-- Character of a six-bit value. -/
def b64CharOf (n : Nat) : Char := b64Alphabet.getD n '?'

/-- Base64 encoding of a byte list in three-byte chunks, as `btoa`
produces over the binary string of `arrayBufferToBase64`. -/
def btoaChunks : List Nat → List Char
  | [] => []
  | [a] => [b64CharOf (a / 4), b64CharOf (a % 4 * 16), '=', '=']
  | [a, b] => [b64CharOf (a / 4), b64CharOf (a % 4 * 16 + b / 16), b64CharOf (b % 16 * 4), '=']
  | a :: b :: c :: rest =>
    b64CharOf (a / 4) :: b64CharOf (a % 4 * 16 + b / 16) ::
      b64CharOf (b % 16 * 4 + c / 64) :: b64CharOf (c % 64) :: btoaChunks rest

/-- Models `arrayBufferToBase64(buffer)`: the worker builds a binary string
from the byte values (each below 256) and applies `btoa`. -/
def arrayBufferToBase64 (buffer : List Nat) : String := ⟨btoaChunks buffer⟩

/-- Position of a character in the base64 alphabet. -/
def b64IndexOf (c : Char) : Option Nat := b64Alphabet.indexOf? c

/-- Standard base64 decoding on characters, strict on chunk shape. -/
def b64DecodeChars : List Char → Option (List Nat)
  | c1 :: c2 :: c3 :: c4 :: rest =>
    if c3 = '=' ∧ c4 = '=' ∧ rest = [] then
      match b64IndexOf c1, b64IndexOf c2 with
      | some s0, some s1 => if s1 % 16 = 0 then some [s0 * 4 + s1 / 16] else none
      | _, _ => none
    else if c4 = '=' ∧ rest = [] then
      match b64IndexOf c1, b64IndexOf c2, b64IndexOf c3 with
      | some s0, some s1, some s2 =>
        if s2 % 4 = 0 then some [s0 * 4 + s1 / 16, s1 % 16 * 16 + s2 / 4] else none
      | _, _, _ => none
    else
      match b64IndexOf c1, b64IndexOf c2, b64IndexOf c3, b64IndexOf c4, b64DecodeChars rest with
      | some s0, some s1, some s2, some s3, some bs =>
        some ((s0 * 4 + s1 / 16) :: (s1 % 16 * 16 + s2 / 4) :: (s2 % 4 * 64 + s3) :: bs)
      | _, _, _, _, _ => none
  | [] => some []
  | _ => none

/-- Base64 decoding of a string. -/
def base64Decode (s : String) : Option (List Nat) := b64DecodeChars s.data

theorem b64IndexOf_b64CharOf : ∀ n < 64, b64IndexOf (b64CharOf n) = some n := by decide

theorem b64CharOf_ne_pad : ∀ n < 64, b64CharOf n ≠ '=' := by decide

theorem btoa_roundtrip (bs : List Nat) (h : ∀ b ∈ bs, b < 256) :
    b64DecodeChars (btoaChunks bs) = some bs := by
  induction bs using btoaChunks.induct with
  | case1 => rfl
  | case2 a =>
    have ha : a < 256 := h a (by simp)
    have h1 := b64IndexOf_b64CharOf (a / 4) (by omega)
    have h2 := b64IndexOf_b64CharOf (a % 4 * 16) (by omega)
    have h3 : a % 4 * 16 % 16 = 0 := by omega
    simp [btoaChunks, b64DecodeChars, h1, h2, h3]
    omega
  | case3 a b =>
    have ha : a < 256 := h a (by simp)
    have hb : b < 256 := h b (by simp)
    have hne : b64CharOf (b % 16 * 4) ≠ '=' := b64CharOf_ne_pad _ (by omega)
    have h1 := b64IndexOf_b64CharOf (a / 4) (by omega)
    have h2 := b64IndexOf_b64CharOf (a % 4 * 16 + b / 16) (by omega)
    have h3 := b64IndexOf_b64CharOf (b % 16 * 4) (by omega)
    have h4 : b % 16 * 4 % 4 = 0 := by omega
    simp [btoaChunks, b64DecodeChars, hne, h1, h2, h3, h4]
    omega
  | case4 a b c rest ih =>
    have ha : a < 256 := h a (by simp)
    have hb : b < 256 := h b (by simp)
    have hc : c < 256 := h c (by simp)
    have hne : b64CharOf (c % 64) ≠ '=' := b64CharOf_ne_pad _ (by omega)
    have ihr := ih (fun x hx => h x (by simp [hx]))
    have h1 := b64IndexOf_b64CharOf (a / 4) (by omega)
    have h2 := b64IndexOf_b64CharOf (a % 4 * 16 + b / 16) (by omega)
    have h3 := b64IndexOf_b64CharOf (b % 16 * 4 + c / 64) (by omega)
    have h4 := b64IndexOf_b64CharOf (c % 64) (by omega)
    simp [btoaChunks, b64DecodeChars, hne, h1, h2, h3, h4, ihr]
    omega

/-! ## The RequirePackage dependency scanner

Models `textContent.matchAll` of the worker's dependency pattern: the
literal macro name, an optional bracket group free of closing brackets,
then a brace group of at least one non-brace character.  The scanner
walks left to right, restarting one character later on a failed match and
after the consumed characters on a successful one, exactly as the global
regex does. -/

/-- The literal macro head searched for, as characters. -/
def reqPkgLit : List Char := "\\RequirePackage".data

/-- Consumes an optional bracket group at the front; returns the consumed
length and the remainder (zero and the input when no group matches). -/
def matchOptBracket (l : List Char) : Nat × List Char :=
  match l with
  | '[' :: t =>
    let pre := t.takeWhile (fun c => c ≠ ']')
    match t.drop pre.length with
    | ']' :: after => (pre.length + 2, after)
    | _ => (0, l)
  | _ => (0, l)

/-- Attempts the full dependency pattern at the head of `l`; returns the
brace-group capture and the total number of characters matched. -/
def tryReqMatch (l : List Char) : Option (List Char × Nat) :=
  if reqPkgLit.isPrefixOf l then
    let rest := l.drop reqPkgLit.length
    let br := matchOptBracket rest
    match br.2 with
    | '{' :: body =>
      let cap := body.takeWhile (fun c => c ≠ '}')
      if cap.length ≠ 0 ∧ body.drop cap.length ≠ [] then
        some (cap, reqPkgLit.length + br.1 + 1 + cap.length + 1)
      else none
    | _ => none
  else none

/-- Fuel-driven scan; the fuel is the remaining length, every step
consumes at least one character, so the initial length never runs out. -/
def scanReqAux : Nat → List Char → List (List Char)
  | 0, _ => []
  | _, [] => []
  | fuel + 1, c :: cs =>
    match tryReqMatch (c :: cs) with
    | some (cap, k) => cap :: scanReqAux fuel (cs.drop (k - 1))
    | none => scanReqAux fuel cs

/-- All capture groups of the global match, in order. -/
def scanReq (l : List Char) : List (List Char) := scanReqAux l.length l

/-- The simple identifier pattern kept as a dependency. -/
def depIdentOk (s : String) : Bool :=
  match s.data with
  | [] => false
  | c :: rest => c.isAlpha && rest.all (fun d => d.isAlpha || d.isDigit || d == '-')

/-- Insertion into a JavaScript `Set` (insertion order, duplicates ignored). -/
def setAdd (s : List String) (x : String) : List String :=
  if x ∈ s then s else s ++ [x]

/-- The identifiers of one capture group: split on commas, trimmed,
filtered by the identifier pattern. -/
def depsOfCapture (cap : String) : List String :=
  ((splitOnChar cap ',').map jsTrim).filter depIdentOk

/-- Accumulates the dependencies detected in one TeX source text. -/
def scanDeps (text : String) (deps0 : List String) : List String :=
  (scanReq text.data).foldl (fun acc cap => (depsOfCapture ⟨cap⟩).foldl setAdd acc) deps0

/-! ## processZip -/

/-- One archive entry as produced by `unzipSync`: internal path and bytes. -/
structure ZipEntry where
  path : String
  bytes : List Nat
deriving DecidableEq

/-- One output file of the extracted set. -/
structure FileEntry where
  content : String
  encoding : String
deriving DecidableEq

/-- The successful result object of `processZip`. -/
structure ExtractedResult where
  name : String
  files : List (String × FileEntry)
  totalFiles : Nat
  dependencies : List String
deriving DecidableEq

/-- Intermediate state of the extraction loop. -/
structure ZAcc where
  files : List (String × FileEntry)
  deps : List String
deriving DecidableEq

/-- Extensions decoded as TeX source text. -/
def texExtensions : List String :=
  [".sty", ".cls", ".def", ".cfg", ".tex", ".fd", ".clo", ".ltx"]

/-- Extensions stored as base64 font binaries. -/
def fontExtensions : List String :=
  [".pfb", ".pfm", ".afm", ".tfm", ".vf", ".map", ".enc"]

/-- Models `filePath.substring(filePath.lastIndexOf('.')).toLowerCase()`;
with no dot, `substring(-1)` clamps to the whole string. -/
def jsExt (path : String) : String :=
  match lastIdxOfChar path '.' with
  | some i => toLowerStr ⟨path.data.drop i⟩
  | none => toLowerStr path

/-- Models `filePath.split('/').pop() || ''`. -/
def jsFileName (path : String) : String := (splitOnChar path '/').getLastD ""

/-- The doc/source skip of the extraction loop. -/
def isDocOrSource (p : String) : Bool :=
  jsIncludes p "/doc/" || strStartsWith p "doc/" ||
  jsIncludes p "/source/" || strStartsWith p "source/"

/-- First capture of a pattern `marker([^/]+)`: scans for the marker
followed by at least one non-slash character, restarting one character
later on failure, as `String.prototype.match` does. -/
def texCapture (marker : List Char) : List Char → Option String
  | [] => none
  | c :: cs =>
    if marker.isPrefixOf (c :: cs) then
      let cap := ((c :: cs).drop marker.length).takeWhile (fun d => d ≠ '/')
      if cap ≠ [] then some ⟨cap⟩ else texCapture marker cs
    else texCapture marker cs

/-- Target directory of a TeX source file, preserving a recognised
`tex/latex` or `tex/generic` subtree and defaulting to the package name. -/
def texTargetDir (pkgName path : String) : String :=
  if jsIncludes path "/tex/latex/" then
    match texCapture "/tex/latex/".data path.data with
    | some m => "/texlive/texmf-dist/tex/latex/" ++ m
    | none => "/texlive/texmf-dist/tex/latex/" ++ pkgName
  else if jsIncludes path "/tex/generic/" then
    match texCapture "/tex/generic/".data path.data with
    | some m => "/texlive/texmf-dist/tex/generic/" ++ m
    | none => "/texlive/texmf-dist/tex/latex/" ++ pkgName
  else "/texlive/texmf-dist/tex/latex/" ++ pkgName

/-- The recognised font subtree kinds of the fonts regex alternation. -/
def fontKinds : List String :=
  ["type1", "tfm", "vf", "afm", "enc", "map", "opentype", "truetype"]

/-- Matches the regex tail of one or more non-empty slash segments ending
the string: begins with a slash, never doubles one, never ends in one. -/
def fontsRestOk (l : List Char) : Bool :=
  l.head? == some '/' && l.getLast? != some '/' && !(firstIdxFrom ['/', '/'] l 0).isSome

/-- The fonts pattern anchored at one position: a `fonts/` segment, one of
the recognised kinds, then segments to the end of the path. -/
def fontsHere (l : List Char) : Bool :=
  "fonts/".data.isPrefixOf l &&
  fontKinds.any (fun t =>
    t.data.isPrefixOf (l.drop 6) && fontsRestOk ((l.drop 6).drop t.data.length))

/-- Scans every position that is the start or preceded by a slash. -/
def fontsScan : Bool → List Char → Bool
  | _, [] => false
  | atBoundary, c :: cs => (atBoundary && fontsHere (c :: cs)) || fontsScan (c == '/') cs

/-- Boolean test of the worker's fonts path regex. -/
def fontsRegexTest (p : String) : Bool := fontsScan true p.data

/-- The fallback extension-to-directory table of the font branch. -/
def extToDir (ext : String) : String :=
  if ext = ".pfb" then "fonts/type1/public"
  else if ext = ".pfm" then "fonts/type1/public"
  else if ext = ".afm" then "fonts/afm/public"
  else if ext = ".tfm" then "fonts/tfm/public"
  else if ext = ".vf" then "fonts/vf/public"
  else if ext = ".map" then "fonts/map/dvips"
  else if ext = ".enc" then "fonts/enc/dvips"
  else "fonts/type1/public"

/-- Target directory of a font file: the preserved `fonts/...` subtree
from the first `fonts/` occurrence up to the last slash when the regex
matches, the fallback table otherwise.  The impossible no-index case
(the regex guarantees an occurrence) also takes the fallback. -/
def fontTargetDir (pkgName path ext : String) : String :=
  if fontsRegexTest path then
    match jsIndexOf path "fonts/", lastIdxOfChar path '/' with
    | some fi, some li => "/texlive/texmf-dist/" ++ jsSubstring path fi li
    | _, _ => "/texlive/texmf-dist/" ++ extToDir ext ++ "/" ++ pkgName
  else "/texlive/texmf-dist/" ++ extToDir ext ++ "/" ++ pkgName

/-- Assignment `result[key] = value` on a JavaScript object: replaces in
place when the key exists, appends otherwise. -/
def objSet (m : List (String × FileEntry)) (k : String) (v : FileEntry) :
    List (String × FileEntry) :=
  if m.any (fun p => p.1 == k) then
    m.map (fun p => if p.1 == k then (k, v) else p)
  else m ++ [(k, v)]

/-- One iteration of the extraction loop of `processZip`. -/
def processEntry (pkgName : String) (acc : ZAcc) (e : ZipEntry) : ZAcc :=
  let ext := jsExt e.path
  let fileName := jsFileName e.path
  if isDocOrSource e.path then acc
  else if ext ∈ texExtensions then
    let targetDir := texTargetDir pkgName e.path
    let textContent := textDecode e.bytes
    { files := objSet acc.files (targetDir ++ "/" ++ fileName) ⟨textContent, "text"⟩,
      deps := scanDeps textContent acc.deps }
  else if ext ∈ fontExtensions then
    let targetDir := fontTargetDir pkgName e.path ext
    { acc with
      files := objSet acc.files (targetDir ++ "/" ++ fileName)
        ⟨arrayBufferToBase64 e.bytes, "base64"⟩ }
  else acc

/-- The extraction loop over all entries, from the empty state. -/
def processAcc (entries : List ZipEntry) (pkgName : String) : ZAcc :=
  entries.foldl (processEntry pkgName) ⟨[], []⟩

/-- Models `processZip(zipBuffer, pkgName)` on the entry list the ZIP
decodes to: extracts TeX and font files, collects dependencies, drops the
requesting package from them, and reports `none` for an empty result. -/
def processZip (entries : List ZipEntry) (pkgName : String) : Option ExtractedResult :=
  if (processAcc entries pkgName).files.length = 0 then none
  else some ⟨pkgName, (processAcc entries pkgName).files,
    (processAcc entries pkgName).files.length,
    (processAcc entries pkgName).deps.filter (fun d => d ≠ pkgName)⟩

/-! ## Worlds, effects and responses

A `World` fixes the behaviour of every upstream the worker talks to: the
registry JSON endpoint, the mirror archive downloads, the TexLive archive
host, and the R2 object store.  `FetchResult.thrown` models a rejected
`fetch` promise (transport failure) and, for archive downloads, a body
that `unzipSync` throws on — both are caught by the same `try` blocks.
A successful archive response carries the entry list its ZIP decodes to. -/

/-- Outcome of one `fetch` call. -/
inductive FetchResult (α : Type) where
  | thrown : FetchResult α
  | resp (status : Nat) (payload : α) : FetchResult α
deriving DecidableEq

/-- Models `response.ok`. -/
def respOk (status : Nat) : Prop := 200 ≤ status ∧ status ≤ 299

instance (status : Nat) : Decidable (respOk status) := by
  unfold respOk
  infer_instance

/-- The registry JSON payload fields the worker reads; `ctanPath` stands
for the nested `ctan.path`. -/
structure CtanInfo where
  name : Option String := none
  errors : Bool := false
  miktex : Option String := none
  texlive : Option String := none
  install : Option String := none
  ctanPath : Option String := none
deriving DecidableEq

/-- A value in the R2 object store: JSON text or raw bytes. -/
inductive StoredVal where
  | str (s : String)
  | bin (bs : List Nat)
deriving DecidableEq

/-- Models `object.text()`. -/
def StoredVal.asText : StoredVal → String
  | .str s => s
  | .bin bs => textDecode bs

/-- Models streaming the object body as bytes. -/
def StoredVal.asBytes : StoredVal → List Nat
  | .str s => utf8Encode s
  | .bin bs => bs

/-- The fixed upstream behaviour a request executes against. -/
structure World where
  fetchJson : String → FetchResult CtanInfo
  fetchZip : String → FetchResult (List ZipEntry)
  fetchBytes : String → FetchResult (List Nat)
  store : String → Option StoredVal

/-- One observable side effect, in execution order. -/
inductive Eff where
  | fetch (url : String)
  | readStore (key : String)
  | writeStore (key : String)
deriving DecidableEq

/-- Response bodies, by provenance: a serialized error object, a cached
text payload returned verbatim, a freshly serialized extraction result,
or raw bytes. -/
inductive RespBody where
  | jsonError (msg : String)
  | text (s : String)
  | extracted (r : ExtractedResult)
  | bytes (bs : List Nat)
  | pkgInfo (name : String) (containedIn : Option String) (ctanPath : Option String)
deriving DecidableEq

/-- An HTTP response: status, body and headers in order. -/
structure Resp where
  status : Nat
  body : RespBody
  headers : List (String × String)
deriving DecidableEq

/-- The permissive CORS headers attached to every response. -/
def CORS_HEADERS : List (String × String) :=
  [("Access-Control-Allow-Origin", "*"),
   ("Access-Control-Allow-Methods", "GET, POST, OPTIONS"),
   ("Access-Control-Allow-Headers", "Content-Type")]

/-- Models the `jsonResponse` helper. -/
def jsonResponse (body : RespBody) (status : Nat) : Resp :=
  ⟨status, body, ("Content-Type", "application/json") :: CORS_HEADERS⟩

/-! ## Constants and small helpers of the worker -/

/-- Manual epoch of the processed-package cache keys. -/
def CTAN_CACHE_VERSION : String := "v5"

/-- The pinned TexLive 2023 archive base URL. -/
def TEXLIVE_ARCHIVE_BASE : String :=
  "https://ftp.tu-chemnitz.de/pub/tug/historic/systems/texlive/2023/tlnet-final/archive"

/-- The registry metadata endpoint for a package. -/
def ctanJsonUrl (pkg : String) : String := "https://ctan.org/json/2.0/pkg/" ++ pkg

/-- The mirror host serving archives. -/
def mirrorBase : String := "https://mirrors.ctan.org"

/-- The bootstrap alias table for names the registry fails on. -/
def bootstrapAliases (n : String) : Option String :=
  if n = "etex" then some "etex-pkg"
  else if n = "tikz" then some "pgf"
  else none

/-- Models `bootstrapAliases[requestedPkg] || requestedPkg`. -/
def resolveAlias (n : String) : String := (bootstrapAliases n).getD n

/-- JavaScript truthiness of an optional string field. -/
def strTruthy : Option String → Bool
  | some s => s ≠ ""
  | none => false

/-- Models `a || b` for an optional string against a string default. -/
def orFalsy (a : Option String) (b : String) : String :=
  match a with
  | some s => if s = "" then b else s
  | none => b

/-- Models `a || b || null` on optional string fields. -/
def jsOrOpt (a b : Option String) : Option String :=
  if strTruthy a then a else if strTruthy b then b else none

/-- Models `a || null` on an optional string field. -/
def jsOrNull (a : Option String) : Option String :=
  if strTruthy a then a else none

/-- The package-name character class `[a-zA-Z0-9_-]` of the validator. -/
def validPkgChar (c : Char) : Bool := c.isAlpha || c.isDigit || c == '_' || c == '-'

/-- The second validation step: some character outside the class. -/
def nameCharsBad (s : String) : Bool := s.data.any (fun c => !validPkgChar c)

/-- The first validation step `!pkg || pkg.length < 2 || pkg.length > 50`
(string length counted in characters). -/
def nameLengthBad (s : String) : Prop := s = "" ∨ s.length < 2 ∨ s.length > 50

instance (s : String) : Decidable (nameLengthBad s) := by
  unfold nameLengthBad
  infer_instance

/-- Cache key of the processed result for a requested name. -/
def ctanCacheKey (name : String) : String :=
  "ctan-cache/" ++ CTAN_CACHE_VERSION ++ "/" ++ name ++ ".json"

/-- Cache key of a raw TexLive archive. -/
def texliveCacheKey (pkg : String) : String := "texlive-cache/" ++ pkg ++ ".tar.xz"

/-- The TexLive archive URL for a package. -/
def texliveUrl (pkg : String) : String :=
  TEXLIVE_ARCHIVE_BASE ++ "/" ++ pkg ++ ".tar.xz"

/-! ## The fallback chain -/

/-- First download URL the TDS stage tries: the install path when the
metadata declares one, otherwise the content path with `.tds.zip`. -/
def tdsFirstUrl (info : CtanInfo) : Option String :=
  if strTruthy info.install then some (mirrorBase ++ "/install" ++ info.install.getD "")
  else if strTruthy info.ctanPath then
    some (mirrorBase ++ info.ctanPath.getD "" ++ ".tds.zip")
  else none

/-- Models `tryCtanTdsZip(pkgName)`: registry lookup, first download
attempt, and — only when that attempt failed with a non-success status,
a content path exists, and the first URL does not contain `.tds.zip` —
one retry against the content-path TDS URL.  Thrown fetches are caught
and reported as no result. -/
def tryCtanTdsZip (pkgName : String) (w : World) : Option ExtractedResult × List Eff :=
  let infoUrl := ctanJsonUrl pkgName
  match w.fetchJson infoUrl with
  | .thrown => (none, [.fetch infoUrl])
  | .resp status info =>
    if ¬ respOk status then (none, [.fetch infoUrl])
    else if info.errors then (none, [.fetch infoUrl])
    else
      match tdsFirstUrl info with
      | none => (none, [.fetch infoUrl])
      | some url =>
        match w.fetchZip url with
        | .thrown => (none, [.fetch infoUrl, .fetch url])
        | .resp zstatus entries =>
          if respOk zstatus then
            (processZip entries pkgName, [.fetch infoUrl, .fetch url])
          else if strTruthy info.ctanPath && !jsIncludes url ".tds.zip" then
            let altUrl := mirrorBase ++ info.ctanPath.getD "" ++ ".tds.zip"
            match w.fetchZip altUrl with
            | .thrown => (none, [.fetch infoUrl, .fetch url, .fetch altUrl])
            | .resp astatus aentries =>
              if respOk astatus then
                (processZip aentries pkgName, [.fetch infoUrl, .fetch url, .fetch altUrl])
              else (none, [.fetch infoUrl, .fetch url, .fetch altUrl])
          else (none, [.fetch infoUrl, .fetch url])

/-- Models `tryCtanSourceZip(pkgName)`: registry lookup, then the plain
content-path `.zip` download. -/
def tryCtanSourceZip (pkgName : String) (w : World) : Option ExtractedResult × List Eff :=
  let infoUrl := ctanJsonUrl pkgName
  match w.fetchJson infoUrl with
  | .thrown => (none, [.fetch infoUrl])
  | .resp status info =>
    if ¬ respOk status then (none, [.fetch infoUrl])
    else if info.errors || !strTruthy info.ctanPath then (none, [.fetch infoUrl])
    else
      let url := mirrorBase ++ info.ctanPath.getD "" ++ ".zip"
      match w.fetchZip url with
      | .thrown => (none, [.fetch infoUrl, .fetch url])
      | .resp zstatus entries =>
        if respOk zstatus then (processZip entries pkgName, [.fetch infoUrl, .fetch url])
        else (none, [.fetch infoUrl, .fetch url])

/-- Headers of a fresh processed response, tagged with its source stage. -/
def missHeaders (src : String) : List (String × String) :=
  [("Content-Type", "application/json"), ("X-Cache", "MISS"), ("X-Source", src)] ++
    CORS_HEADERS

/-- The parent package derived from the registry lookup in
`handleCtanFetch`: `info.miktex || info.texlive || pkgName` on a
successful, error-free payload, the package name itself otherwise. -/
def parentOf (pkgName : String) (res : FetchResult CtanInfo) : String :=
  match res with
  | .thrown => pkgName
  | .resp status info =>
    if respOk status then
      if info.errors then pkgName
      else orFalsy info.miktex (orFalsy info.texlive pkgName)
    else pkgName

/-- The portion of `handleCtanFetch` after the registry lookup: TDS
attempt for the parent package, then the source-zip attempt for the
alias-resolved name, caching a success under the requested name's key,
404 otherwise. -/
def ctanChain (requestedPkg pkgName parentPkg : String) (w : World) : Resp × List Eff :=
  let cacheKey := ctanCacheKey requestedPkg
  match tryCtanTdsZip parentPkg w with
  | (some r, effs) =>
    (⟨200, .extracted r, missHeaders "ctan"⟩, effs ++ [.writeStore cacheKey])
  | (none, effs) =>
    match tryCtanSourceZip pkgName w with
    | (some r, effs2) =>
      (⟨200, .extracted r, missHeaders "ctan-source"⟩,
        effs ++ effs2 ++ [.writeStore cacheKey])
    | (none, effs2) =>
      (jsonResponse (.jsonError "Package not found") 404, effs ++ effs2)

/-- Models `handleCtanFetch(requestedPkg)`: validation, object-store
lookup under the requested name's key, alias resolution, registry lookup
(whose transport failure reaches the outer catch as a 500), and the
fallback chain. -/
def handleCtanFetch (requestedPkg : String) (w : World) : Resp × List Eff :=
  if nameLengthBad requestedPkg then
    (jsonResponse (.jsonError "Invalid package name") 400, [])
  else if nameCharsBad requestedPkg then
    (jsonResponse (.jsonError "Invalid package name characters") 400, [])
  else
    let cacheKey := ctanCacheKey requestedPkg
    match w.store cacheKey with
    | some v =>
      (⟨200, .text v.asText,
        [("Content-Type", "application/json"), ("X-Cache", "HIT")] ++ CORS_HEADERS⟩,
       [.readStore cacheKey])
    | none =>
      let pkgName := resolveAlias requestedPkg
      let infoUrl := ctanJsonUrl pkgName
      match w.fetchJson infoUrl with
      | .thrown =>
        (jsonResponse (.jsonError "CTAN fetch error") 500,
         [.readStore cacheKey, .fetch infoUrl])
      | .resp status info =>
        let parentPkg := parentOf pkgName (.resp status info)
        let step := ctanChain requestedPkg pkgName parentPkg w
        (step.1, [.readStore cacheKey, .fetch infoUrl] ++ step.2)

/-- Models `handleTexLiveProxy(pkgName)`: validation, raw-archive cache
lookup, upstream fetch with 404 passthrough, 502 on other non-success
statuses, 500 via the catch on a thrown fetch, and write-back on success. -/
def handleTexLiveProxy (pkgName : String) (w : World) : Resp × List Eff :=
  if nameLengthBad pkgName then
    (jsonResponse (.jsonError "Invalid package name") 400, [])
  else if nameCharsBad pkgName then
    (jsonResponse (.jsonError "Invalid package name characters") 400, [])
  else
    let cacheKey := texliveCacheKey pkgName
    match w.store cacheKey with
    | some v =>
      (⟨200, .bytes v.asBytes,
        [("Content-Type", "application/x-xz"),
         ("Content-Length", toString v.asBytes.length),
         ("X-Cache", "HIT")] ++ CORS_HEADERS⟩,
       [.readStore cacheKey])
    | none =>
      let url := texliveUrl pkgName
      match w.fetchBytes url with
      | .thrown =>
        (jsonResponse (.jsonError "TexLive proxy error") 500,
         [.readStore cacheKey, .fetch url])
      | .resp status body =>
        if respOk status then
          (⟨200, .bytes body,
            [("Content-Type", "application/x-xz"),
             ("Content-Length", toString body.length),
             ("X-Cache", "MISS")] ++ CORS_HEADERS⟩,
           [.readStore cacheKey, .fetch url, .writeStore cacheKey])
        else if status = 404 then
          (jsonResponse (.jsonError "Package not found in TexLive 2023") 404,
           [.readStore cacheKey, .fetch url])
        else
          (jsonResponse (.jsonError ("TexLive fetch failed: " ++ toString status)) 502,
           [.readStore cacheKey, .fetch url])

/-- Models `handleCtanPkgInfo(pkgName)`: validation, registry lookup, and
the reduced metadata payload `name`, `contained_in`, `ctan_path`. -/
def handleCtanPkgInfo (pkgName : String) (w : World) : Resp × List Eff :=
  if nameLengthBad pkgName then
    (jsonResponse (.jsonError "Invalid package name") 400, [])
  else if nameCharsBad pkgName then
    (jsonResponse (.jsonError "Invalid package name characters") 400, [])
  else
    let url := ctanJsonUrl pkgName
    match w.fetchJson url with
    | .thrown => (jsonResponse (.jsonError "CTAN lookup error") 500, [.fetch url])
    | .resp status info =>
      if ¬ respOk status then
        (jsonResponse (.jsonError "Package not found") 404, [.fetch url])
      else if info.errors then
        (jsonResponse (.jsonError "Package not found") 404, [.fetch url])
      else
        (jsonResponse (.pkgInfo (orFalsy info.name pkgName)
          (jsOrOpt info.texlive info.miktex) (jsOrNull info.ctanPath)) 200,
         [.fetch url])

/-! ## Shared worlds and helper lemmas -/

/-- A world with no cached entries and every upstream failing by
transport error. -/
def trivialWorld : World :=
  { fetchJson := fun _ => .thrown, fetchZip := fun _ => .thrown,
    fetchBytes := fun _ => .thrown, store := fun _ => none }

/-- On a valid name and a cache miss, the processed handler first reads
the store under the requested name's key and then queries the registry
under the alias-resolved name. -/
theorem handleCtanFetch_miss_effects (name : String) (w : World)
    (h1 : ¬ nameLengthBad name) (h2 : nameCharsBad name = false)
    (h3 : w.store (ctanCacheKey name) = none) :
    ∃ rest, (handleCtanFetch name w).2 =
      .readStore (ctanCacheKey name) :: .fetch (ctanJsonUrl (resolveAlias name)) :: rest := by
  unfold handleCtanFetch
  rw [if_neg h1, if_neg (by simp [h2])]
  simp only [h3]
  cases hj : w.fetchJson (ctanJsonUrl (resolveAlias name)) with
  | thrown => exact ⟨[], rfl⟩
  | resp s i => exact ⟨_, rfl⟩

/-! ## C3 — validation rejects before any effect -/

/-- C3: for every package name whose length lies outside two to fifty or
that contains a character outside the allowed class, each of the three
package-name endpoints returns a status-400 JSON error and performs no
fetch, no store read and no store write. -/
theorem c3_invalid_name_rejected_before_effects (name : String) (w : World)
    (h : name.length < 2 ∨ name.length > 50 ∨ nameCharsBad name = true) :
    ((handleCtanFetch name w).1.status = 400 ∧
      (∃ m, (handleCtanFetch name w).1.body = .jsonError m) ∧
      (handleCtanFetch name w).2 = []) ∧
    ((handleTexLiveProxy name w).1.status = 400 ∧
      (∃ m, (handleTexLiveProxy name w).1.body = .jsonError m) ∧
      (handleTexLiveProxy name w).2 = []) ∧
    ((handleCtanPkgInfo name w).1.status = 400 ∧
      (∃ m, (handleCtanPkgInfo name w).1.body = .jsonError m) ∧
      (handleCtanPkgInfo name w).2 = []) := by
  by_cases hl : nameLengthBad name
  · simp [handleCtanFetch, handleTexLiveProxy, handleCtanPkgInfo, hl, jsonResponse]
  · have hc : nameCharsBad name = true := by
      rcases h with h | h | h
      · exact absurd (Or.inr (Or.inl h)) hl
      · exact absurd (Or.inr (Or.inr h)) hl
      · exact h
    simp [handleCtanFetch, handleTexLiveProxy, handleCtanPkgInfo, hl, hc, jsonResponse]

/-- Witness for C3 at the name with an illegal character. -/
theorem c3_witness :
    ((handleCtanFetch "a!" trivialWorld).1.status = 400 ∧
      (∃ m, (handleCtanFetch "a!" trivialWorld).1.body = .jsonError m) ∧
      (handleCtanFetch "a!" trivialWorld).2 = []) ∧
    ((handleTexLiveProxy "a!" trivialWorld).1.status = 400 ∧
      (∃ m, (handleTexLiveProxy "a!" trivialWorld).1.body = .jsonError m) ∧
      (handleTexLiveProxy "a!" trivialWorld).2 = []) ∧
    ((handleCtanPkgInfo "a!" trivialWorld).1.status = 400 ∧
      (∃ m, (handleCtanPkgInfo "a!" trivialWorld).1.body = .jsonError m) ∧
      (handleCtanPkgInfo "a!" trivialWorld).2 = []) :=
  c3_invalid_name_rejected_before_effects "a!" trivialWorld (Or.inr (Or.inr (by decide)))

/-! ## C5 — object-store hit short-circuits the pipeline -/

/-- C5: when the store already holds an entry under the requested name's
versioned key, the processed handler returns exactly the stored payload
with the hit marker, and its only effect is the single store read: no
registry lookup, no archive fetch, no store write. -/
theorem c5_cache_hit_returns_stored_payload (name : String) (w : World) (v : StoredVal)
    (h1 : ¬ nameLengthBad name) (h2 : nameCharsBad name = false)
    (h3 : w.store (ctanCacheKey name) = some v) :
    handleCtanFetch name w =
      (⟨200, .text v.asText,
        [("Content-Type", "application/json"), ("X-Cache", "HIT")] ++ CORS_HEADERS⟩,
       [.readStore (ctanCacheKey name)]) := by
  unfold handleCtanFetch
  rw [if_neg h1, if_neg (by simp [h2])]
  simp only [h3]

/-- A world whose store holds one processed payload under mypkg's key. -/
def hitWorld : World :=
  { trivialWorld with
    store := fun k => if k = ctanCacheKey "mypkg" then some (.str "CACHED") else none }

/-- Witness for C5 at a concrete cached world. -/
theorem c5_witness :
    handleCtanFetch "mypkg" hitWorld =
      (⟨200, .text "CACHED",
        [("Content-Type", "application/json"), ("X-Cache", "HIT")] ++ CORS_HEADERS⟩,
       [.readStore (ctanCacheKey "mypkg")]) :=
  c5_cache_hit_returns_stored_payload "mypkg" hitWorld (.str "CACHED")
    (by decide) (by decide) (by decide)

/-! ## C7 — bootstrap alias resolution -/

/-- The registry lookup of a request is performed under a given name. -/
def looksUpVia (requested canonical : String) (w : World) : Prop :=
  ∃ rest, (handleCtanFetch requested w).2 =
    .readStore (ctanCacheKey requested) :: .fetch (ctanJsonUrl canonical) :: rest

/-- C7: on a cache miss, requesting tikz performs the registry lookup
under pgf and requesting etex under etex-pkg, while every name outside
the bootstrap alias table is looked up under itself. -/
theorem c7_alias_resolution (w : World)
    (h1 : w.store (ctanCacheKey "tikz") = none)
    (h2 : w.store (ctanCacheKey "etex") = none) :
    resolveAlias "tikz" = "pgf" ∧ resolveAlias "etex" = "etex-pkg" ∧
    looksUpVia "tikz" "pgf" w ∧ looksUpVia "etex" "etex-pkg" w ∧
    (∀ name, bootstrapAliases name = none → ¬ nameLengthBad name →
      nameCharsBad name = false → w.store (ctanCacheKey name) = none →
      looksUpVia name name w) := by
  refine ⟨rfl, rfl, ?_, ?_, ?_⟩
  · exact handleCtanFetch_miss_effects "tikz" w (by decide) (by decide) h1
  · exact handleCtanFetch_miss_effects "etex" w (by decide) (by decide) h2
  · intro name hna hl hc hm
    have h := handleCtanFetch_miss_effects name w hl hc hm
    rw [show resolveAlias name = name by simp [resolveAlias, hna]] at h
    exact h

/-- Witness for C7 at the empty-store world, including a non-aliased name. -/
theorem c7_witness :
    looksUpVia "tikz" "pgf" trivialWorld ∧ looksUpVia "etex" "etex-pkg" trivialWorld ∧
    looksUpVia "foobar" "foobar" trivialWorld :=
  ⟨(c7_alias_resolution trivialWorld rfl rfl).2.2.1,
   (c7_alias_resolution trivialWorld rfl rfl).2.2.2.1,
   (c7_alias_resolution trivialWorld rfl rfl).2.2.2.2 "foobar" (by decide)
     (by decide) (by decide) rfl⟩

/-! ## C8 — registry failure degrades to the unqualified name -/

/-- C8: when the registry lookup of the processed handler answers with a
non-success status or an error payload, resolution does not abort — the
parent package stays the alias-resolved requested name and the fallback
chain runs with that name as both request name and parent name. -/
theorem c8_registry_failure_degrades (name : String) (w : World)
    (h1 : ¬ nameLengthBad name) (h2 : nameCharsBad name = false)
    (h3 : w.store (ctanCacheKey name) = none)
    (s : Nat) (info : CtanInfo)
    (h4 : w.fetchJson (ctanJsonUrl (resolveAlias name)) = .resp s info)
    (h5 : ¬ respOk s ∨ info.errors = true) :
    parentOf (resolveAlias name) (.resp s info) = resolveAlias name ∧
    handleCtanFetch name w =
      ((ctanChain name (resolveAlias name) (resolveAlias name) w).1,
       [.readStore (ctanCacheKey name), .fetch (ctanJsonUrl (resolveAlias name))] ++
         (ctanChain name (resolveAlias name) (resolveAlias name) w).2) := by
  have hp : parentOf (resolveAlias name) (.resp s info) = resolveAlias name := by
    rcases h5 with h5 | h5
    · simp [parentOf, h5]
    · simp [parentOf, h5]
  refine ⟨hp, ?_⟩
  unfold handleCtanFetch
  rw [if_neg h1, if_neg (by simp [h2])]
  simp only [h3, h4, hp]

/-- A world whose registry answers 404 everywhere. -/
def registry404World : World :=
  { trivialWorld with fetchJson := fun _ => .resp 404 {} }

/-- Witness for C8 at the all-404 registry world. -/
theorem c8_witness :
    parentOf (resolveAlias "mypkg") (.resp 404 {}) = resolveAlias "mypkg" ∧
    handleCtanFetch "mypkg" registry404World =
      ((ctanChain "mypkg" (resolveAlias "mypkg") (resolveAlias "mypkg") registry404World).1,
       [.readStore (ctanCacheKey "mypkg"), .fetch (ctanJsonUrl (resolveAlias "mypkg"))] ++
         (ctanChain "mypkg" (resolveAlias "mypkg") (resolveAlias "mypkg") registry404World).2) :=
  c8_registry_failure_degrades "mypkg" registry404World (by decide) (by decide) rfl
    404 {} rfl (Or.inl (by decide))

/-! ## C10 — cache keys derive from the requested name -/

/-- Recognises a fetch effect. -/
def Eff.isFetch : Eff → Bool
  | .fetch _ => true
  | _ => false

/-- Every effect of the TDS stage is a fetch. -/
theorem tryCtanTdsZip_effects_fetch (pk : String) (w : World) :
    ((tryCtanTdsZip pk w).2).all Eff.isFetch = true := by
  simp only [tryCtanTdsZip]
  repeat' split
  all_goals rfl

/-- Every effect of the source-zip stage is a fetch. -/
theorem tryCtanSourceZip_effects_fetch (pk : String) (w : World) :
    ((tryCtanSourceZip pk w).2).all Eff.isFetch = true := by
  simp only [tryCtanSourceZip]
  repeat' split
  all_goals rfl

/-- A store write is never a fetch. -/
theorem writeStore_not_fetch (k : String) (l : List Eff)
    (hall : l.all Eff.isFetch = true) : Eff.writeStore k ∉ l := by
  intro hmem
  have := List.all_eq_true.mp hall _ hmem
  simp [Eff.isFetch] at this

/-- C10: the processed handler's store read is its first effect, keyed by
the requested name before the alias table can intervene, and every store
write it performs uses that same key; tikz and pgf, etex and etex-pkg
therefore occupy distinct cache keys. -/
theorem c10_cache_key_per_requested_name (name : String) (w : World)
    (h1 : ¬ nameLengthBad name) (h2 : nameCharsBad name = false) :
    (∃ rest, (handleCtanFetch name w).2 = .readStore (ctanCacheKey name) :: rest) ∧
    (∀ k, Eff.writeStore k ∈ (handleCtanFetch name w).2 → k = ctanCacheKey name) ∧
    ctanCacheKey "tikz" ≠ ctanCacheKey "pgf" ∧
    ctanCacheKey "etex" ≠ ctanCacheKey "etex-pkg" := by
  refine ⟨?_, ?_, by decide, by decide⟩
  · unfold handleCtanFetch
    rw [if_neg h1, if_neg (by simp [h2])]
    cases hs : w.store (ctanCacheKey name) with
    | some v =>
      simp only [hs]
      exact ⟨_, rfl⟩
    | none =>
      simp only [hs]
      cases hj : w.fetchJson (ctanJsonUrl (resolveAlias name)) with
      | thrown =>
        simp only [hj]
        exact ⟨_, rfl⟩
      | resp s i =>
        simp only [hj]
        exact ⟨_, rfl⟩
  · intro k hk
    unfold handleCtanFetch at hk
    rw [if_neg h1, if_neg (by simp [h2])] at hk
    cases hs : w.store (ctanCacheKey name) with
    | some v =>
      simp only [hs] at hk
      simp at hk
    | none =>
      simp only [hs] at hk
      cases hj : w.fetchJson (ctanJsonUrl (resolveAlias name)) with
      | thrown =>
        simp only [hj] at hk
        simp at hk
      | resp s i =>
        simp only [hj] at hk
        have htds := tryCtanTdsZip_effects_fetch (parentOf (resolveAlias name) (.resp s i)) w
        have hsrc := tryCtanSourceZip_effects_fetch (resolveAlias name) w
        simp only [ctanChain] at hk
        rcases htdsv : tryCtanTdsZip (parentOf (resolveAlias name) (.resp s i)) w with ⟨tr, teffs⟩
        rw [htdsv] at htds hk
        cases tr with
        | some r =>
          rcases List.mem_append.mp hk with h12 | h2
          · simp at h12
          · rcases List.mem_append.mp h2 with h3 | h4
            · exact absurd h3 (writeStore_not_fetch k _ htds)
            · simpa using h4
        | none =>
          rcases hsrcv : tryCtanSourceZip (resolveAlias name) w with ⟨sr, seffs⟩
          rw [hsrcv] at hsrc hk
          cases sr with
          | some r =>
            rcases List.mem_append.mp hk with h12 | h2
            · simp at h12
            · rcases List.mem_append.mp h2 with h3 | h4
              · rcases List.mem_append.mp h3 with h5 | h6
                · exact absurd h5 (writeStore_not_fetch k _ htds)
                · exact absurd h6 (writeStore_not_fetch k _ hsrc)
              · simpa using h4
          | none =>
            rcases List.mem_append.mp hk with h12 | h2
            · simp at h12
            · rcases List.mem_append.mp h2 with h3 | h4
              · exact absurd h3 (writeStore_not_fetch k _ htds)
              · exact absurd h4 (writeStore_not_fetch k _ hsrc)

/-- Witness for C10 at the empty-store world. -/
theorem c10_witness :
    (∃ rest, (handleCtanFetch "tikz" trivialWorld).2 =
      .readStore (ctanCacheKey "tikz") :: rest) ∧
    (∀ k, Eff.writeStore k ∈ (handleCtanFetch "tikz" trivialWorld).2 →
      k = ctanCacheKey "tikz") ∧
    ctanCacheKey "tikz" ≠ ctanCacheKey "pgf" ∧
    ctanCacheKey "etex" ≠ ctanCacheKey "etex-pkg" :=
  c10_cache_key_per_requested_name "tikz" trivialWorld (by decide) (by decide)

/-! ## C6 — doc/ and source/ trees are excluded -/

/-- A doc or source entry leaves the extraction state untouched. -/
theorem processEntry_skip (pk : String) (acc : ZAcc) (e : ZipEntry)
    (h : isDocOrSource e.path = true) : processEntry pk acc e = acc := by
  simp [processEntry, h]

/-- Folding over the kept entries equals folding over all entries. -/
theorem foldl_filter_docsource (pk : String) (l : List ZipEntry) (acc : ZAcc) :
    (l.filter (fun e => !isDocOrSource e.path)).foldl (processEntry pk) acc =
      l.foldl (processEntry pk) acc := by
  induction l generalizing acc with
  | nil => rfl
  | cons e t ih =>
    by_cases h : isDocOrSource e.path
    · rw [List.filter_cons_of_neg (by simp [h]), List.foldl_cons,
        processEntry_skip pk acc e h]
      exact ih acc
    · rw [List.filter_cons_of_pos (by simp [h]), List.foldl_cons, List.foldl_cons]
      exact ih (processEntry pk acc e)

/-- A world whose registry knows barpkg and whose mirror serves an
archive holding only documentation and source entries. -/
def docOnlyWorld : World :=
  { trivialWorld with
    fetchJson := fun u =>
      if u = ctanJsonUrl "barpkg" then
        .resp 200 { install := some "/macros/latex/contrib/barpkg.tds.zip",
                    ctanPath := some "/macros/latex/contrib/barpkg" }
      else .resp 404 {},
    fetchZip := fun _ =>
      .resp 200 [⟨"doc/manual.pdf", [37, 80, 68, 70]⟩, ⟨"source/bar.dtx", [98]⟩] }

/-- C6: entries under doc/ or source/ never contribute to the output —
extraction over any archive equals extraction over the archive with those
entries removed; an archive holding only doc/manual.pdf and
source/bar.dtx extracts zero files and `processZip` reports no result
rather than crashing; and the pipeline then answers not-found. -/
theorem c6_doc_source_excluded :
    (∀ entries pkgName, processZip entries pkgName =
      processZip (entries.filter (fun e => !isDocOrSource e.path)) pkgName) ∧
    (∀ pkgName b1 b2,
      processZip [⟨"doc/manual.pdf", b1⟩, ⟨"source/bar.dtx", b2⟩] pkgName = none) ∧
    (∀ pkgName bs, processZip [⟨"doc/latex/bar/bar.sty", bs⟩] pkgName = none) ∧
    (handleCtanFetch "barpkg" docOnlyWorld).1 =
      jsonResponse (.jsonError "Package not found") 404 := by
  refine ⟨?_, fun _ _ _ => rfl, fun _ _ => rfl, by decide⟩
  intro entries pkgName
  unfold processZip processAcc
  rw [foldl_filter_docsource]

/-! ## C4 — dependency extraction -/

/-- A TeX source text declaring two dependencies behind an option list. -/
def c4Text : String :=
  "% demo\n\\RequirePackage[options]\x7bamsmath,graphicx\x7d\n"

/-- The extraction result of the demo archive when amsmath requests it. -/
def c4DemoResult : ExtractedResult :=
  ⟨"amsmath", [("/texlive/texmf-dist/tex/latex/bar/bar.sty", ⟨c4Text, "text"⟩)],
   1, ["graphicx"]⟩

/-- C4: the demo text yields exactly amsmath and graphicx as
dependencies, each once; the requesting package's own name never appears
in the dependency list of any extraction, so a self-reference from
amsmath's request leaves only graphicx. -/
theorem c4_dependency_extraction :
    ((processZip [⟨"foo/tex/latex/bar/bar.sty", utf8Encode c4Text⟩] "foo").map
      ExtractedResult.dependencies = some ["amsmath", "graphicx"]) ∧
    (∀ pkgName entries r, processZip entries pkgName = some r →
      pkgName ∉ r.dependencies) ∧
    ((processZip [⟨"foo/tex/latex/bar/bar.sty", utf8Encode c4Text⟩] "amsmath").map
      ExtractedResult.dependencies = some ["graphicx"]) := by
  refine ⟨by decide, ?_, by decide⟩
  intro pkgName entries r h
  unfold processZip at h
  split at h
  · exact absurd h (by simp)
  · rw [Option.some_inj] at h
    intro hmem
    rw [← h] at hmem
    simp [List.mem_filter] at hmem

/-- Witness for C4: the self-exclusion applied at the demo archive. -/
theorem c4_witness :
    ((processZip [⟨"foo/tex/latex/bar/bar.sty", utf8Encode c4Text⟩] "foo").map
      ExtractedResult.dependencies = some ["amsmath", "graphicx"]) ∧
    "amsmath" ∉ c4DemoResult.dependencies :=
  ⟨c4_dependency_extraction.1,
   c4_dependency_extraction.2.1 "amsmath"
     [⟨"foo/tex/latex/bar/bar.sty", utf8Encode c4Text⟩] c4DemoResult (by decide)⟩

/-! ## C2 — round-trip classification -/

/-- C2: a ZIP holding exactly foo/tex/latex/bar/bar.sty extracts exactly
one file at the preserved tex/latex/bar path with text encoding and the
decoded text as content; one holding fonts/type1/public/bar/bar.pfb with
arbitrary bytes extracts exactly one base64 file at the preserved fonts
path whose content decodes back to the input bytes. -/
theorem c2_roundtrip_classifier :
    (∀ pkgName bs,
      (processZip [⟨"foo/tex/latex/bar/bar.sty", bs⟩] pkgName).map
        (fun r => (r.files, r.totalFiles)) =
      some ([("/texlive/texmf-dist/tex/latex/bar/bar.sty",
        ⟨textDecode bs, "text"⟩)], 1)) ∧
    (∀ pkgName bs, (∀ b ∈ bs, b < 256) →
      (processZip [⟨"fonts/type1/public/bar/bar.pfb", bs⟩] pkgName).map
        (fun r => (r.files, r.totalFiles)) =
      some ([("/texlive/texmf-dist/fonts/type1/public/bar/bar.pfb",
        ⟨arrayBufferToBase64 bs, "base64"⟩)], 1) ∧
      base64Decode (arrayBufferToBase64 bs) = some bs) := by
  constructor
  · intro pkgName bs
    rfl
  · intro pkgName bs h
    exact ⟨rfl, btoa_roundtrip bs h⟩

/-- Witness for C2 at concrete text and binary bytes. -/
theorem c2_witness :
    ((processZip [⟨"foo/tex/latex/bar/bar.sty", [104, 105]⟩] "bar").map
        (fun r => (r.files, r.totalFiles)) =
      some ([("/texlive/texmf-dist/tex/latex/bar/bar.sty",
        ⟨textDecode [104, 105], "text"⟩)], 1)) ∧
    ((processZip [⟨"fonts/type1/public/bar/bar.pfb", [0, 255, 10]⟩] "bar").map
        (fun r => (r.files, r.totalFiles)) =
      some ([("/texlive/texmf-dist/fonts/type1/public/bar/bar.pfb",
        ⟨arrayBufferToBase64 [0, 255, 10], "base64"⟩)], 1) ∧
      base64Decode (arrayBufferToBase64 [0, 255, 10]) = some [0, 255, 10]) :=
  ⟨c2_roundtrip_classifier.1 "bar" [104, 105],
   c2_roundtrip_classifier.2 "bar" [0, 255, 10] (by decide)⟩

/-! ## C9 — upstream failures in the passthrough and processed paths

The claim states that a transport failure in the raw passthrough is
surfaced as 502; in the code a rejected fetch reaches the handler's
catch-all and is surfaced as 500, so the claim is refuted at a world
whose TexLive fetch throws, and holds once transport failures are
separated from non-success statuses. -/

/-- Counterexample to C9 as stated: with the upstream fetch throwing, the
raw passthrough answers 500 through its catch-all, not 502. -/
theorem c9_counterexample :
    (handleTexLiveProxy "mypkg" trivialWorld).1.status = 500 ∧
    ¬ (handleTexLiveProxy "mypkg" trivialWorld).1.status = 502 := by decide

/-- C9 (amended): in the raw passthrough an upstream non-success status
other than 404 is surfaced as a 502 JSON error, an upstream 404 as a 404
not-found, and a transport failure as a 500 JSON error via the catch-all;
in the processed pipeline upstream transport failures are absorbed into a
no-result answer of both fallback stages instead of surfacing. -/
theorem c9_upstream_error_handling (pkgName : String) (w : World)
    (h1 : ¬ nameLengthBad pkgName) (h2 : nameCharsBad pkgName = false)
    (h3 : w.store (texliveCacheKey pkgName) = none) :
    (∀ s b, w.fetchBytes (texliveUrl pkgName) = .resp s b → ¬ respOk s → s ≠ 404 →
      (handleTexLiveProxy pkgName w).1 =
        jsonResponse (.jsonError ("TexLive fetch failed: " ++ toString s)) 502) ∧
    (∀ b, w.fetchBytes (texliveUrl pkgName) = .resp 404 b →
      (handleTexLiveProxy pkgName w).1 =
        jsonResponse (.jsonError "Package not found in TexLive 2023") 404) ∧
    (w.fetchBytes (texliveUrl pkgName) = .thrown →
      (handleTexLiveProxy pkgName w).1 =
        jsonResponse (.jsonError "TexLive proxy error") 500) ∧
    (∀ pk w2, (∀ u, w2.fetchZip u = FetchResult.thrown) →
      (tryCtanTdsZip pk w2).1 = none ∧ (tryCtanSourceZip pk w2).1 = none) := by
  refine ⟨?_, ?_, ?_, ?_⟩
  · intro s b hf hno h404
    unfold handleTexLiveProxy
    rw [if_neg h1, if_neg (by simp [h2])]
    simp only [h3, hf]
    rw [if_neg (by simpa using hno), if_neg h404]
  · intro b hf
    unfold handleTexLiveProxy
    rw [if_neg h1, if_neg (by simp [h2])]
    simp only [h3, hf]
    rw [if_neg (by simp [respOk])]
    simp
  · intro hf
    unfold handleTexLiveProxy
    rw [if_neg h1, if_neg (by simp [h2])]
    simp only [h3, hf]
  · intro pk w2 hz
    constructor
    · simp only [tryCtanTdsZip, hz]
      repeat' split
      all_goals rfl
    · simp only [tryCtanSourceZip, hz]
      repeat' split
      all_goals rfl

/-- A world whose TexLive archive host answers 503. -/
def tex503World : World :=
  { trivialWorld with fetchBytes := fun _ => .resp 503 [] }

/-- Witness for C9 (amended) at a 503 upstream and at a throwing mirror. -/
theorem c9_witness :
    (handleTexLiveProxy "mypkg" tex503World).1 =
      jsonResponse (.jsonError ("TexLive fetch failed: " ++ toString 503)) 502 ∧
    (tryCtanTdsZip "mypkg" trivialWorld).1 = none ∧
    (tryCtanSourceZip "mypkg" trivialWorld).1 = none :=
  ⟨(c9_upstream_error_handling "mypkg" tex503World (by decide) (by decide) rfl).1
      503 [] rfl (by simp [respOk]) (by decide),
   ((c9_upstream_error_handling "mypkg" tex503World (by decide) (by decide) rfl).2.2.2
      "mypkg" trivialWorld (fun _ => rfl)).1,
   ((c9_upstream_error_handling "mypkg" tex503World (by decide) (by decide) rfl).2.2.2
      "mypkg" trivialWorld (fun _ => rfl)).2⟩

/-! ## C1 — the archive fallback chain

The claim prescribes a retry of the content-path TDS URL whenever the
install-path attempt was made and failed and a content path exists.  The
code guards that retry by the first URL not containing the substring
`.tds.zip`; an install path that itself ends in `.tds.zip` — the common
shape of registry install paths — therefore skips the retry and falls
through to the source-zip stage directly.  The counterexample exhibits
exactly that world; the amended chain property adds the substring guard
and is proved for every world. -/

/-- A successful extraction has a positive file count and files. -/
theorem processZip_some_pos (entries : List ZipEntry) (pk : String) (r : ExtractedResult)
    (h : processZip entries pk = some r) : 0 < r.totalFiles ∧ r.files ≠ [] := by
  unfold processZip at h
  split at h
  · cases h
  · rename_i hlen
    rw [Option.some_inj] at h
    subst h
    constructor
    · show 0 < (processAcc entries pk).files.length
      omega
    · show (processAcc entries pk).files ≠ []
      intro hnil
      exact hlen (by simp [hnil])

/-- A TDS-stage success comes from `processZip` on some entry list. -/
theorem tryCtanTdsZip_some (pk : String) (w : World) (r : ExtractedResult)
    (h : (tryCtanTdsZip pk w).1 = some r) : ∃ entries, processZip entries pk = some r := by
  simp only [tryCtanTdsZip] at h
  repeat' split at h
  all_goals dsimp only at h
  all_goals first
    | exact Option.noConfusion h
    | exact ⟨_, h⟩

/-- A source-stage success comes from `processZip` on some entry list. -/
theorem tryCtanSourceZip_some (pk : String) (w : World) (r : ExtractedResult)
    (h : (tryCtanSourceZip pk w).1 = some r) : ∃ entries, processZip entries pk = some r := by
  simp only [tryCtanSourceZip] at h
  repeat' split at h
  all_goals dsimp only at h
  all_goals first
    | exact Option.noConfusion h
    | exact ⟨_, h⟩

/-- On a valid name, a cache miss and an answering registry, the handler
is the chain outcome prefixed by the store read and registry fetch. -/
theorem handleCtanFetch_chain_eq (name : String) (w : World)
    (h1 : ¬ nameLengthBad name) (h2 : nameCharsBad name = false)
    (h3 : w.store (ctanCacheKey name) = none)
    (s0 : Nat) (i0 : CtanInfo)
    (hj : w.fetchJson (ctanJsonUrl (resolveAlias name)) = .resp s0 i0) :
    handleCtanFetch name w =
      ((ctanChain name (resolveAlias name)
          (parentOf (resolveAlias name) (.resp s0 i0)) w).1,
       [.readStore (ctanCacheKey name), .fetch (ctanJsonUrl (resolveAlias name))] ++
         (ctanChain name (resolveAlias name)
           (parentOf (resolveAlias name) (.resp s0 i0)) w).2) := by
  unfold handleCtanFetch
  rw [if_neg h1, if_neg (by simp [h2])]
  simp only [h3, hj]

/-- The fallback chain contract of one processed request: strict source
order stopping at the first success, the prescribed attempt URLs of each
stage — with the retry guarded by the first URL not containing `.tds.zip`
— a 404 only once both stages failed, and no empty success. -/
def C1Prop (name : String) (w : World) : Prop :=
  let pk := resolveAlias name
  let parent := parentOf pk (w.fetchJson (ctanJsonUrl pk))
  let key := ctanCacheKey name
  let out := handleCtanFetch name w
  let tds := tryCtanTdsZip parent w
  let src := tryCtanSourceZip pk w
  (∀ r, tds.1 = some r →
    out = (⟨200, .extracted r, missHeaders "ctan"⟩,
      [.readStore key, .fetch (ctanJsonUrl pk)] ++ (tds.2 ++ [.writeStore key]))) ∧
  (∀ r, tds.1 = none → src.1 = some r →
    out = (⟨200, .extracted r, missHeaders "ctan-source"⟩,
      [.readStore key, .fetch (ctanJsonUrl pk)] ++ ((tds.2 ++ src.2) ++ [.writeStore key]))) ∧
  (tds.1 = none → src.1 = none →
    out = (jsonResponse (.jsonError "Package not found") 404,
      [.readStore key, .fetch (ctanJsonUrl pk)] ++ (tds.2 ++ src.2))) ∧
  (∀ s i, w.fetchJson (ctanJsonUrl parent) = .resp s i → respOk s → i.errors = false →
    (strTruthy i.install = true →
      tdsFirstUrl i = some (mirrorBase ++ "/install" ++ i.install.getD "")) ∧
    (strTruthy i.install = false → strTruthy i.ctanPath = true →
      tdsFirstUrl i = some (mirrorBase ++ i.ctanPath.getD "" ++ ".tds.zip")) ∧
    (∀ u, tdsFirstUrl i = some u →
      (∃ rest, tds.2 = .fetch (ctanJsonUrl parent) :: .fetch u :: rest) ∧
      (∀ s2 e2, w.fetchZip u = .resp s2 e2 → ¬ respOk s2 →
        strTruthy i.ctanPath = true → jsIncludes u ".tds.zip" = false →
        tds.2 = [.fetch (ctanJsonUrl parent), .fetch u,
          .fetch (mirrorBase ++ i.ctanPath.getD "" ++ ".tds.zip")]))) ∧
  (∀ s i, w.fetchJson (ctanJsonUrl pk) = .resp s i → respOk s → i.errors = false →
    strTruthy i.ctanPath = true →
    ∃ rest, src.2 = .fetch (ctanJsonUrl pk) ::
      .fetch (mirrorBase ++ i.ctanPath.getD "" ++ ".zip") :: rest) ∧
  (∀ r, out.1.body = .extracted r → 0 < r.totalFiles ∧ r.files ≠ [])

/-- A world whose registry declares for foopkg an install path that ends
in `.tds.zip` together with a content path, and whose mirror answers 404
on every archive URL. -/
def c1World : World :=
  { trivialWorld with
    fetchJson := fun u =>
      if u = ctanJsonUrl "foopkg" then
        .resp 200 { install := some "/macros/latex/contrib/foopkg.tds.zip",
                    ctanPath := some "/macros/foopkg" }
      else .resp 404 {},
    fetchZip := fun _ => .resp 404 [] }

/-- Counterexample to C1 as stated: the install-path attempt is made and
fails, a content path exists, yet the prescribed content-path TDS retry
is never fetched — the chain skips straight to the source-zip stage. -/
theorem c1_counterexample :
    Eff.fetch (mirrorBase ++ "/install/macros/latex/contrib/foopkg.tds.zip") ∈
      (handleCtanFetch "foopkg" c1World).2 ∧
    Eff.fetch (mirrorBase ++ "/macros/foopkg.tds.zip") ∉
      (handleCtanFetch "foopkg" c1World).2 ∧
    Eff.fetch (mirrorBase ++ "/macros/foopkg.zip") ∈
      (handleCtanFetch "foopkg" c1World).2 ∧
    (handleCtanFetch "foopkg" c1World).1.status = 404 := by decide

/-- C1 (amended): the fallback chain contract holds of every request that
reaches the chain. -/
theorem c1_fallback_chain (name : String) (w : World)
    (h1 : ¬ nameLengthBad name) (h2 : nameCharsBad name = false)
    (h3 : w.store (ctanCacheKey name) = none)
    (hreg : w.fetchJson (ctanJsonUrl (resolveAlias name)) ≠ .thrown) :
    C1Prop name w := by
  obtain ⟨s0, i0, hj⟩ : ∃ s0 i0,
      w.fetchJson (ctanJsonUrl (resolveAlias name)) = .resp s0 i0 := by
    cases hc : w.fetchJson (ctanJsonUrl (resolveAlias name)) with
    | thrown => exact absurd hc hreg
    | resp s i => exact ⟨s, i, rfl⟩
  have hout := handleCtanFetch_chain_eq name w h1 h2 h3 s0 i0 hj
  simp only [C1Prop, hj]
  refine ⟨?_, ?_, ?_, ?_, ?_, ?_⟩
  · intro r htds
    rw [hout]
    rcases htdsv : tryCtanTdsZip (parentOf (resolveAlias name) (.resp s0 i0)) w
      with ⟨tr, teffs⟩
    rw [htdsv] at htds
    simp only at htds
    subst htds
    simp only [ctanChain, htdsv]
  · intro r htds hsrc
    rw [hout]
    rcases htdsv : tryCtanTdsZip (parentOf (resolveAlias name) (.resp s0 i0)) w
      with ⟨tr, teffs⟩
    rcases hsrcv : tryCtanSourceZip (resolveAlias name) w with ⟨sr, seffs⟩
    rw [htdsv] at htds
    rw [hsrcv] at hsrc
    simp only at htds hsrc
    subst htds
    subst hsrc
    simp only [ctanChain, htdsv, hsrcv]
  · intro htds hsrc
    rw [hout]
    rcases htdsv : tryCtanTdsZip (parentOf (resolveAlias name) (.resp s0 i0)) w
      with ⟨tr, teffs⟩
    rcases hsrcv : tryCtanSourceZip (resolveAlias name) w with ⟨sr, seffs⟩
    rw [htdsv] at htds
    rw [hsrcv] at hsrc
    simp only at htds hsrc
    subst htds
    subst hsrc
    simp only [ctanChain, htdsv, hsrcv]
  · intro s i hj2 hok herr
    refine ⟨?_, ?_, ?_⟩
    · intro hinst
      simp [tdsFirstUrl, hinst]
    · intro hinst hpath
      simp [tdsFirstUrl, hinst, hpath]
    · intro u hu
      constructor
      · simp only [tryCtanTdsZip, hj2, hu]
        rw [if_neg (not_not_intro hok), if_neg (by simp [herr])]
        cases hz : w.fetchZip u with
        | thrown => exact ⟨_, rfl⟩
        | resp s2 e2 =>
          dsimp only
          by_cases hok2 : respOk s2
          · rw [if_pos hok2]
            exact ⟨_, rfl⟩
          · rw [if_neg hok2]
            by_cases hretry : (strTruthy i.ctanPath && !jsIncludes u ".tds.zip") = true
            · rw [if_pos hretry]
              cases w.fetchZip (mirrorBase ++ i.ctanPath.getD "" ++ ".tds.zip") with
              | thrown => exact ⟨_, rfl⟩
              | resp s3 e3 =>
                dsimp only
                by_cases hok3 : respOk s3
                · rw [if_pos hok3]
                  exact ⟨_, rfl⟩
                · rw [if_neg hok3]
                  exact ⟨_, rfl⟩
            · rw [if_neg hretry]
              exact ⟨_, rfl⟩
      · intro s2 e2 hz hno2 hpath hnotds
        simp only [tryCtanTdsZip, hj2, hu, hz]
        rw [if_neg (not_not_intro hok), if_neg (by simp [herr]),
          if_neg (by simpa using hno2), if_pos (by simp [hpath, hnotds])]
        cases w.fetchZip (mirrorBase ++ i.ctanPath.getD "" ++ ".tds.zip") with
        | thrown => rfl
        | resp s3 e3 =>
          dsimp only
          by_cases hok3 : respOk s3
          · rw [if_pos hok3]
          · rw [if_neg hok3]
  · intro s i hj2 hok herr hpath
    injection hj2 with hs hi
    subst hs
    subst hi
    simp only [tryCtanSourceZip, hj]
    rw [if_neg (not_not_intro hok), if_neg (by simp [herr, hpath])]
    cases hz : w.fetchZip (mirrorBase ++ i0.ctanPath.getD "" ++ ".zip") with
    | thrown => exact ⟨_, rfl⟩
    | resp s2 e2 =>
      dsimp only
      by_cases hok2 : respOk s2
      · rw [if_pos hok2]
        exact ⟨_, rfl⟩
      · rw [if_neg hok2]
        exact ⟨_, rfl⟩
  · intro r hbody
    rw [hout] at hbody
    rcases htdsv : tryCtanTdsZip (parentOf (resolveAlias name) (.resp s0 i0)) w
      with ⟨tr, teffs⟩
    cases tr with
    | some r2 =>
      have h2 : (tryCtanTdsZip (parentOf (resolveAlias name) (.resp s0 i0)) w).1
          = some r2 := by rw [htdsv]
      simp only [ctanChain, htdsv] at hbody
      obtain ⟨entries, he⟩ := tryCtanTdsZip_some _ w r2 h2
      have hpos := processZip_some_pos entries _ r2 he
      injection hbody with hb
      rw [hb] at hpos
      exact hpos
    | none =>
      rcases hsrcv : tryCtanSourceZip (resolveAlias name) w with ⟨sr, seffs⟩
      cases sr with
      | some r2 =>
        have h2 : (tryCtanSourceZip (resolveAlias name) w).1 = some r2 := by rw [hsrcv]
        simp only [ctanChain, htdsv, hsrcv] at hbody
        obtain ⟨entries, he⟩ := tryCtanSourceZip_some _ w r2 h2
        have hpos := processZip_some_pos entries _ r2 he
        injection hbody with hb
        rw [hb] at hpos
        exact hpos
      | none =>
        simp only [ctanChain, htdsv, hsrcv, jsonResponse] at hbody
        cases hbody

/-- Witness for C1 (amended) at the counterexample world. -/
theorem c1_witness : C1Prop "foopkg" c1World :=
  c1_fallback_chain "foopkg" c1World (by decide) (by decide) rfl (by decide)

end Siglum
